import Mathlib

/-!
Shallow embedding of `src/main.py` (a Flask service rendering Bible
verse-of-the-day cards) and proofs about its core subsystems: the
pixel-metric text wrapper, the single-use verse cache, the background
acquisition fallback chain, the upstream verse formatter, and the
`/vimg/<key>` rendering pipeline.

Python strings are modelled as lists of characters (`PyStr`); font
measurement (`draw.textbbox`) is an abstract parameter, since glyph
metrics live in the external font rasteriser; external HTTP effects are
modelled by their outcomes (`Except`), a raised exception being
`Except.error`.
-/

set_option maxHeartbeats 1000000

/-- A Python `str`, modelled as its sequence of characters. -/
abbrev PyStr := List Char

/-! ## Python `str.split()`

`text.split()` splits on runs of whitespace and drops empty pieces.  We
model it by a right fold: the state is the word currently being built
(to the left of what has been processed) and the completed words to the
right. -/

/-- One character step of `str.split()` (processing right-to-left):
on whitespace, close the pending word; otherwise extend it. -/
def splitStep (c : Char) (st : List Char × List (List Char)) :
    List Char × List (List Char) :=
  if c.isWhitespace then
    ([], if st.1 = [] then st.2 else st.1 :: st.2)
  else
    (c :: st.1, st.2)

/-- Fold `splitStep` over all characters. -/
def splitState (cs : List Char) : List Char × List (List Char) :=
  cs.foldr splitStep ([], [])

/-- Close the pending word of a split state. -/
def splitFinish (st : List Char × List (List Char)) : List (List Char) :=
  if st.1 = [] then st.2 else st.1 :: st.2

/-- Python `text.split()`: whitespace-separated words, empties dropped. -/
def pySplit (cs : PyStr) : List PyStr :=
  splitFinish (splitState cs)

/-! ## `wrap_text_pixels` (src/main.py lines 78–102)

`measure s` models `draw.textbbox((0, 0), s, font=font)[2] - bbox[0]`,
the pixel width of `s` under the given font. -/

/-- The greedy accumulation loop of `wrap_text_pixels`
(`for w in words: ...` plus the trailing `if line: lines.append(line)`). -/
def wrapLoop (measure : PyStr → Nat) (maxWidth : Nat)
    (lines : List PyStr) (line : PyStr) : List PyStr → List PyStr
  | [] => if line = [] then lines else lines ++ [line]
  | w :: ws =>
    let testLine := if line = [] then w else line ++ [' '] ++ w
    if measure testLine ≤ maxWidth then
      wrapLoop measure maxWidth lines testLine ws
    else if line = [] then
      wrapLoop measure maxWidth lines w ws
    else
      wrapLoop measure maxWidth (lines ++ [line]) w ws

/-- `wrap_text_pixels(text, font, draw, max_width)`: wrap `text` so each
line fits within `maxWidth` pixels, using font metrics. -/
def wrap_text_pixels (measure : PyStr → Nat) (text : PyStr) (maxWidth : Nat) :
    List PyStr :=
  let lines := wrapLoop measure maxWidth [] [] (pySplit text)
  if lines = [] then [text] else lines

example : pySplit "  hello   world ".toList = ["hello".toList, "world".toList] := by decide

example : wrap_text_pixels (fun s => s.length) "hello world".toList 5
    = ["hello".toList, "world".toList] := by decide

example : wrap_text_pixels (fun s => s.length) "hello world".toList 11
    = ["hello world".toList] := by decide

example : wrap_text_pixels (fun s => s.length) "".toList 10 = [[]] := by decide

example : wrap_text_pixels (fun s => s.length) "   ".toList 10 = ["   ".toList] := by decide

/-! ## Frames and the gradient background (lines 105–122) -/

/-- An RGB raster frame: its dimensions and a pixel map. -/
structure Img where
  width : Nat
  height : Nat
  pix : Nat → Nat → Nat × Nat × Nat

/-- `int(top * (1 - ratio) + bottom * ratio)` with `ratio = y / height`,
computed in exact rationals (the value is nonnegative, so Python's
truncating `int(...)` is `Int.floor`). -/
def gradChannel (top bottom : ℚ) (y height : Nat) : Nat :=
  (Int.floor (top * (1 - (y : ℚ) / (height : ℚ)) + bottom * ((y : ℚ) / (height : ℚ)))).toNat

/-- `create_gradient_background(width, height)`: a `width × height` frame
whose scanline `y` interpolates the fixed top colour `(60, 35, 120)`
towards the fixed bottom colour `(10, 25, 70)`. -/
def create_gradient_background (width height : Nat) : Img :=
  { width := width
    height := height
    pix := fun _ y =>
      (gradChannel 60 10 y height, gradChannel 35 25 y height, gradChannel 120 70 y height) }

/-! ## The Pexels photo strategy (lines 125–180) -/

/-- Python truthiness of an optional string: `None` and `""` are falsy. -/
def pyTruthy : Option PyStr → Bool
  | none => false
  | some s => !s.isEmpty

/-- Python `a or b` on optional strings: `a` when truthy, else `b`. -/
def pyOrStr (a b : Option PyStr) : Option PyStr :=
  if pyTruthy a then a else b

/-- First-match lookup in an association-list model of a Python `dict`
(`d.get(k)`; a `dict` holds each key at most once, so first match is
exact). -/
def dictLookup {V : Type} : List (PyStr × V) → PyStr → Option V
  | [], _ => none
  | p :: d, k => if p.1 = k then some p.2 else dictLookup d k

/-- One photo object of a Pexels search response: its `src` dict mapping
crop-variant names to URLs. -/
structure PexelsPhoto where
  src : List (PyStr × PyStr)

/-- A Pexels search response: its `photos` array (`data.get("photos", [])`). -/
structure PexelsResponse where
  photos : List PexelsPhoto

/-- Outcomes of the external effects of `get_pexels_background`: the
configured credential (`PEXELS_API_KEY`), the search call, the binary
image download, and the decode (`Image.open(...).convert("RGB")`).
`Except.error` models a raised exception (network failure,
`raise_for_status`, decode failure); `randIndex` models the
`random.choice` draw. -/
structure PexelsEnv where
  apiKey : Option PyStr
  search : PyStr → Except PyStr PexelsResponse
  download : PyStr → Except PyStr PyStr
  decode : PyStr → Except PyStr Img
  randIndex : Nat

/-- The fixed topical query list `NATURE_QUERIES` (lines 23–33). -/
def NATURE_QUERIES : List PyStr :=
  ["forest".toList, "mountains".toList, "sunrise landscape".toList,
   "sunset landscape".toList, "nature landscape".toList, "lake sunrise".toList,
   "path in woods".toList, "misty forest".toList, "mountain sky".toList]

/-- Lines 155–159: `src.get("landscape") or src.get("large2x") or
src.get("original")`. -/
def extract_img_url (photo : PexelsPhoto) : Option PyStr :=
  pyOrStr (dictLookup photo.src "landscape".toList)
    (pyOrStr (dictLookup photo.src "large2x".toList)
      (dictLookup photo.src "original".toList))

/-- `img.resize((width, height), Image.LANCZOS)`: the dimensions are
exact; the resampled pixel values (a floating-point Lanczos kernel) are
abstracted by nearest-sample lookup — no claim depends on them. -/
def Img.resize (img : Img) (width height : Nat) : Img :=
  { width := width
    height := height
    pix := fun x y => img.pix (x * img.width / width) (y * img.height / height) }

/-- Per-channel effect of `Image.alpha_composite` with `(0, 0, 0, 110)`
black over an opaque pixel: the channel is scaled by `(255 - 110)/255`
(exact-rational model of PIL's fixed-point blend). -/
def darkChannel (c : Nat) : Nat :=
  (Int.floor ((c : ℚ) * (255 - 110) / 255)).toNat

/-- The semi-transparent dark overlay of lines 172–174. -/
def darkOverlay (img : Img) : Img :=
  { img with
    pix := fun x y =>
      (darkChannel (img.pix x y).1, darkChannel (img.pix x y).2.1,
        darkChannel (img.pix x y).2.2) }

/-- `get_pexels_background(width, height)`: the photo strategy with the
gradient fallback.  Every failure branch of the `try` block (missing or
empty credential, search exception, empty result set, missing `src` URL,
download exception, decode exception) returns the gradient. -/
def get_pexels_background (env : PexelsEnv) (width height : Nat) : Img :=
  if !pyTruthy env.apiKey then
    create_gradient_background width height
  else
    let query := NATURE_QUERIES.getD (env.randIndex % NATURE_QUERIES.length) []
    match env.search query with
    | .error _ => create_gradient_background width height
    | .ok data =>
      match data.photos with
      | [] => create_gradient_background width height
      | photo :: _ =>
        let imgUrl := extract_img_url photo
        if !pyTruthy imgUrl then
          create_gradient_background width height
        else
          match env.download (imgUrl.getD []) with
          | .error _ => create_gradient_background width height
          | .ok bytes =>
            match env.decode bytes with
            | .error _ => create_gradient_background width height
            | .ok img => darkOverlay (img.resize width height)

/-! ## The verse cache (lines 36, 213–214, 231)

`VERSE_CACHE` is a Python `dict` from hex keys to `(reference, text)`
pairs, modelled as an association list with unique-key semantics
(erasure removes every binding of the key, as a `dict` holds at most
one).  A CPython `dict.pop` is a single atomic operation under the
global interpreter lock, so concurrent `pop`s linearise. -/

/-- Remove every binding of `k` (a `dict` holds at most one). -/
def dictErase {V : Type} (d : List (PyStr × V)) (k : PyStr) : List (PyStr × V) :=
  d.filter (fun p => decide (p.1 ≠ k))

/-- `VERSE_CACHE.pop(key, None)` (line 231): the returned value together
with the cache state afterwards. -/
def takeOnce {V : Type} (d : List (PyStr × V)) (k : PyStr) :
    Option V × List (PyStr × V) :=
  (dictLookup d k, dictErase d k)

/-- `VERSE_CACHE[key] = (reference, text)` (line 214). -/
def cachePut {V : Type} (d : List (PyStr × V)) (k : PyStr) (v : V) :
    List (PyStr × V) :=
  (k, v) :: dictErase d k

/-- The results of `n` successive `takeOnce` calls on the same key: the
linearisation of `n` concurrent `dict.pop(key, None)` calls, each of
which is atomic. -/
def takeSeq {V : Type} (d : List (PyStr × V)) (k : PyStr) : Nat → List (Option V)
  | 0 => []
  | n + 1 => (takeOnce d k).1 :: takeSeq (takeOnce d k).2 k n

/-! ## `get_random_verse` (lines 43–59) -/

/-- One record of the upstream Bible API's JSON array; `chapter` and
`verse` are already coerced to strings (`str(...)` in the source). -/
structure BibleApiVerse where
  bookname : PyStr
  chapter : PyStr
  verse : PyStr
  text : PyStr

/-- Python `s.strip()`: drop leading and trailing whitespace. -/
def pyStrip (s : PyStr) : PyStr :=
  ((s.dropWhile Char.isWhitespace).reverse.dropWhile Char.isWhitespace).reverse

/-- `get_random_verse()` over the outcome of the upstream HTTP fetch:
`Except.error` models a raised exception (network failure,
`raise_for_status`, non-list JSON).  Returns `(reference, text)`. -/
def get_random_verse (fetched : Except PyStr (List BibleApiVerse)) :
    Except PyStr (PyStr × PyStr) :=
  match fetched with
  | .error e => .error e
  | .ok [] => .error "Empty response from Bible API".toList
  | .ok (v :: _) =>
    let book := pyStrip v.bookname
    let chapterS := pyStrip v.chapter
    let verseNum := pyStrip v.verse
    let text := pyStrip v.text
    .ok (book ++ [' '] ++ chapterS ++ [':'] ++ verseNum ++ " (NET)".toList, text)

/-! ## `verse_image` (lines 226–299)

Font faces are modelled by their measuring capability:
`face s = (w, h)` stands for `draw.textbbox((0, 0), s, font=face)`
giving width `bbox[2] - bbox[0]` and height `bbox[3] - bbox[1]`.
Glyph rasterisation is abstracted: the composited card records every
`draw.text` call with its exact string and position. -/

/-- The three faces returned by `load_fonts()`. -/
structure Fonts where
  verse_font : PyStr → Nat × Nat
  ref_font : PyStr → Nat × Nat
  tag_font : PyStr → Nat × Nat

/-- One `draw.text((x, y), txt, ...)` call. -/
structure TextDraw where
  txt : PyStr
  x : Int
  y : Int
deriving DecidableEq

/-- The rendered card: the acquired background plus the recorded text
draws (body lines top-to-bottom, reference line, corner tag). -/
structure Card where
  background : Img
  bodyLines : List TextDraw
  refDraw : TextDraw
  tagDraw : TextDraw

/-- The body-line drawing loop (lines 269–276): per-line horizontal
centering `(width - line_w) // 2` and the running
`current_y += line_h + 12`.  Python `//` is floor division, hence
`Int.fdiv`. -/
def layoutBody (font : PyStr → Nat × Nat) (width : Int) :
    List PyStr → Int → List TextDraw
  | [], _ => []
  | l :: ls, y =>
    { txt := l, x := Int.fdiv (width - ((font l).1 : Int)) 2, y := y } ::
      layoutBody font width ls (y + ((font l).2 : Int) + 12)

/-- The fixed placeholder substituted when both the cache and the fresh
upstream fetch fail (line 238). -/
def placeholderVerse : PyStr × PyStr :=
  ("Verse not available".toList, "Sorry, could not load verse text.".toList)

/-- `verse_image(key)` (the `/vimg/<key>` route): pop the cache, fall
back to a fresh upstream fetch, fall back to the fixed placeholder;
acquire the background; wrap the text into the `1400 - 2*160` pixel box;
lay out body lines, reference and corner tag.  Returns the card and the
cache state after the pop; the function is total — no exception escapes,
and the route always answers with the PNG encoding of this card. -/
def verse_image (cache : List (PyStr × (PyStr × PyStr))) (key : PyStr)
    (fetched : Except PyStr (List BibleApiVerse)) (env : PexelsEnv)
    (fonts : Fonts) : Card × List (PyStr × (PyStr × PyStr)) :=
  let popped := takeOnce cache key
  let verse :=
    match popped.1 with
    | some v => v
    | none =>
      match get_random_verse fetched with
      | .ok v => v
      | .error _ => placeholderVerse
  let reference := verse.1
  let text := verse.2
  let width : Nat := 1400
  let height : Nat := 788
  let bg := get_pexels_background env width height
  let marginX : Nat := 160
  let textBoxWidth := width - 2 * marginX
  let lines := wrap_text_pixels (fun s => (fonts.verse_font s).1) text textBoxWidth
  let lineHeights := lines.map (fun l => (fonts.verse_font l).2)
  let totalTextHeight : Int := (lineHeights.sum : Int) + ((lines.length : Int) - 1) * 12
  let verseTopY := Int.fdiv ((height : Int) - totalTextHeight) 2
  let bodyDraws := layoutBody fonts.verse_font (width : Int) lines verseTopY
  let currentY := verseTopY + (lines.map (fun l => ((fonts.verse_font l).2 : Int) + 12)).sum
  let refWH := fonts.ref_font reference
  let refX := Int.fdiv ((width : Int) - (refWH.1 : Int)) 2
  let refY := currentY + 30
  let credit := "/VerseP PwimpMyWide".toList
  let tagWH := fonts.tag_font credit
  let tagX := (width : Int) - (tagWH.1 : Int) - 24
  let tagY := (height : Int) - (tagWH.2 : Int) - 24
  ({ background := bg
     bodyLines := bodyDraws
     refDraw := { txt := reference, x := refX, y := refY }
     tagDraw := { txt := credit, x := tagX, y := tagY } }, popped.2)

/-! ## Lemmas about `pySplit` -/

/-- A string containing no whitespace character. -/
def noWS (w : List Char) : Prop := ∀ c ∈ w, c.isWhitespace = false

theorem pySplit_nil : pySplit [] = [] := rfl

theorem splitState_cons (c : Char) (cs : List Char) :
    splitState (c :: cs) = splitStep c (splitState cs) := rfl

theorem splitStep_ws {c : Char} (hc : c.isWhitespace = true)
    (st : List Char × List (List Char)) :
    splitStep c st = ([], splitFinish st) := by
  unfold splitStep splitFinish
  rw [if_pos hc]

theorem splitFinish_append (a : List Char) (b L : List (List Char)) :
    splitFinish (a, b ++ L) = splitFinish (a, b) ++ L := by
  unfold splitFinish
  by_cases ha : a = [] <;> simp [ha]

theorem foldr_splitStep_extend (xs : List Char) (L : List (List Char)) :
    xs.foldr splitStep ([], L) = ((splitState xs).1, (splitState xs).2 ++ L) := by
  induction xs with
  | nil => simp [splitState]
  | cons c xs ih =>
    rw [List.foldr_cons, ih, splitState_cons]
    by_cases hc : c.isWhitespace
    · by_cases h1 : (splitState xs).1 = [] <;>
        simp [splitStep, hc, h1]
    · simp [splitStep, hc]

theorem pySplit_append_space (xs ys : List Char) :
    pySplit (xs ++ ' ' :: ys) = pySplit xs ++ pySplit ys := by
  have h1 : splitState (xs ++ ' ' :: ys)
      = xs.foldr splitStep (splitStep ' ' (splitState ys)) := by
    simp [splitState, List.foldr_append, splitState_cons]
  have h2 : splitStep ' ' (splitState ys) = ([], pySplit ys) :=
    splitStep_ws (by decide) _
  unfold pySplit
  rw [h1, h2, foldr_splitStep_extend, splitFinish_append, Prod.mk.eta]
  rfl

theorem splitState_good (cs : List Char) :
    noWS (splitState cs).1 ∧ ∀ w ∈ (splitState cs).2, w ≠ [] ∧ noWS w := by
  induction cs with
  | nil => simp [splitState, noWS]
  | cons c cs ih =>
    rw [splitState_cons]
    by_cases hc : c.isWhitespace
    · by_cases h1 : (splitState cs).1 = []
      · simpa [splitStep, hc, h1, noWS] using ih.2
      · refine ⟨by simp [splitStep, hc, h1, noWS], ?_⟩
        intro w hw
        simp [splitStep, hc, h1] at hw
        rcases hw with rfl | hw
        · exact ⟨h1, ih.1⟩
        · exact ih.2 w hw
    · refine ⟨?_, by simpa [splitStep, hc] using ih.2⟩
      intro d hd
      simp [splitStep, hc] at hd
      rcases hd with rfl | hd
      · simpa using hc
      · exact ih.1 d hd

theorem pySplit_good (cs : List Char) :
    ∀ w ∈ pySplit cs, w ≠ [] ∧ noWS w := by
  intro w hw
  unfold pySplit splitFinish at hw
  by_cases h1 : (splitState cs).1 = []
  · rw [if_pos h1] at hw
    exact (splitState_good cs).2 w hw
  · rw [if_neg h1] at hw
    rcases List.mem_cons.mp hw with rfl | hw
    · exact ⟨h1, (splitState_good cs).1⟩
    · exact (splitState_good cs).2 w hw

theorem splitState_noWS (w : List Char) (h : noWS w) : splitState w = (w, []) := by
  induction w with
  | nil => rfl
  | cons c cs ih =>
    have hc : c.isWhitespace = false := h c (by simp)
    rw [splitState_cons, ih fun d hd => h d (by simp [hd])]
    simp [splitStep, hc]

theorem pySplit_noWS_single (w : List Char) (hne : w ≠ []) (h : noWS w) :
    pySplit w = [w] := by
  unfold pySplit
  rw [splitState_noWS w h]
  unfold splitFinish
  rw [if_neg hne]

theorem pySplit_idem (cs : List Char) : ∀ w ∈ pySplit cs, pySplit w = [w] := by
  intro w hw
  obtain ⟨hne, hws⟩ := pySplit_good cs w hw
  exact pySplit_noWS_single w hne hws

theorem pySplit_nil_of_all_ws (cs : List Char)
    (h : ∀ c ∈ cs, c.isWhitespace = true) : pySplit cs = [] := by
  have hst : splitState cs = ([], []) := by
    induction cs with
    | nil => rfl
    | cons c cs ih =>
      rw [splitState_cons, ih fun d hd => h d (by simp [hd])]
      simp [splitStep, h c (by simp)]
  unfold pySplit
  rw [hst]
  rfl

theorem pySplit_intercalate : ∀ ls : List PyStr,
    pySplit (List.intercalate [' '] ls) = (ls.map pySplit).flatten
  | [] => by simp [List.intercalate, List.intersperse, pySplit_nil]
  | [l] => by simp [List.intercalate, List.intersperse]
  | a :: b :: t => by
    have h : List.intercalate [' '] (a :: b :: t)
        = a ++ ' ' :: List.intercalate [' '] (b :: t) := by
      simp [List.intercalate, List.intersperse_cons_cons]
    rw [h, pySplit_append_space, pySplit_intercalate (b :: t)]
    simp

/-! ## Lemmas about `wrapLoop` -/

theorem wrapLoop_mem (measure : PyStr → Nat) (maxWidth : Nat) :
    ∀ (ws lines : List PyStr) (line : PyStr),
      (∀ w ∈ ws, (pySplit w).length ≤ 1) →
      (∀ l ∈ lines, measure l ≤ maxWidth ∨ (pySplit l).length ≤ 1) →
      (line = [] ∨ measure line ≤ maxWidth ∨ (pySplit line).length ≤ 1) →
      ∀ l ∈ wrapLoop measure maxWidth lines line ws,
        measure l ≤ maxWidth ∨ (pySplit l).length ≤ 1 := by
  intro ws
  induction ws with
  | nil =>
    intro lines line _ hlines hline l hl
    unfold wrapLoop at hl
    by_cases h0 : line = []
    · rw [if_pos h0] at hl
      exact hlines l hl
    · rw [if_neg h0] at hl
      rcases List.mem_append.mp hl with hl | hl
      · exact hlines l hl
      · rcases List.mem_singleton.mp hl with rfl
        rcases hline with h | h
        · exact absurd h h0
        · exact h
  | cons w ws ih =>
    intro lines line hws hlines hline l hl
    have hw1 : (pySplit w).length ≤ 1 := hws w (by simp)
    have hws' : ∀ v ∈ ws, (pySplit v).length ≤ 1 := fun v hv => hws v (by simp [hv])
    unfold wrapLoop at hl
    simp only [] at hl
    by_cases hfit :
        measure (if line = [] then w else line ++ [' '] ++ w) ≤ maxWidth
    · rw [if_pos hfit] at hl
      exact ih lines _ hws' hlines (Or.inr (Or.inl hfit)) l hl
    · rw [if_neg hfit] at hl
      by_cases h0 : line = []
      · rw [if_pos h0] at hl
        exact ih lines w hws' hlines (Or.inr (Or.inr hw1)) l hl
      · rw [if_neg h0] at hl
        refine ih (lines ++ [line]) w hws' ?_ (Or.inr (Or.inr hw1)) l hl
        intro m hm
        rcases List.mem_append.mp hm with hm | hm
        · exact hlines m hm
        · rcases List.mem_singleton.mp hm with rfl
          rcases hline with h | h
          · exact absurd h h0
          · exact h

theorem wrapLoop_flat (measure : PyStr → Nat) (maxWidth : Nat) :
    ∀ (ws lines : List PyStr) (line : PyStr),
      (∀ w ∈ ws, pySplit w = [w]) →
      ((wrapLoop measure maxWidth lines line ws).map pySplit).flatten
        = (lines.map pySplit).flatten ++ pySplit line ++ ws := by
  intro ws
  induction ws with
  | nil =>
    intro lines line _
    unfold wrapLoop
    by_cases h0 : line = []
    · rw [if_pos h0, h0]
      simp [pySplit_nil]
    · rw [if_neg h0]
      simp
  | cons w ws ih =>
    intro lines line hws
    have hw1 : pySplit w = [w] := hws w (by simp)
    have hws' : ∀ v ∈ ws, pySplit v = [v] := fun v hv => hws v (by simp [hv])
    unfold wrapLoop
    simp only []
    by_cases hfit :
        measure (if line = [] then w else line ++ [' '] ++ w) ≤ maxWidth
    · rw [if_pos hfit]
      rw [ih lines _ hws']
      by_cases h0 : line = []
      · rw [if_pos h0, h0, hw1]
        simp [pySplit_nil]
      · rw [if_neg h0]
        have : pySplit (line ++ [' '] ++ w) = pySplit line ++ pySplit w := by
          have : line ++ [' '] ++ w = line ++ ' ' :: w := by simp
          rw [this, pySplit_append_space]
        rw [this, hw1]
        simp
    · rw [if_neg hfit]
      by_cases h0 : line = []
      · rw [if_pos h0, ih lines w hws', h0, hw1]
        simp [pySplit_nil]
      · rw [if_neg h0, ih (lines ++ [line]) w hws', hw1]
        simp

theorem wrapLoop_eq_nil (measure : PyStr → Nat) (maxWidth : Nat) :
    ∀ (ws lines : List PyStr) (line : PyStr),
      (∀ w ∈ ws, w ≠ []) →
      wrapLoop measure maxWidth lines line ws = [] →
      lines = [] ∧ line = [] ∧ ws = [] := by
  intro ws
  induction ws with
  | nil =>
    intro lines line _ h
    unfold wrapLoop at h
    by_cases h0 : line = []
    · rw [if_pos h0] at h
      exact ⟨h, h0, rfl⟩
    · rw [if_neg h0] at h
      exact absurd h (by simp)
  | cons w ws ih =>
    intro lines line hws h
    have hwne : w ≠ [] := hws w (by simp)
    have hws' : ∀ v ∈ ws, v ≠ [] := fun v hv => hws v (by simp [hv])
    unfold wrapLoop at h
    simp only [] at h
    by_cases hfit :
        measure (if line = [] then w else line ++ [' '] ++ w) ≤ maxWidth
    · rw [if_pos hfit] at h
      have := ih lines _ hws' h
      by_cases h0 : line = []
      · rw [if_pos h0] at this
        exact absurd this.2.1 hwne
      · rw [if_neg h0] at this
        exact absurd this.2.1 (by simp [hwne])
    · rw [if_neg hfit] at h
      by_cases h0 : line = []
      · rw [if_pos h0] at h
        exact absurd (ih lines w hws' h).2.1 hwne
      · rw [if_neg h0] at h
        exact absurd (ih (lines ++ [line]) w hws' h).1 (by simp)



/-! ## Lemmas about the cache dictionary -/

theorem dictLookup_erase_self {V : Type} (d : List (PyStr × V)) (k : PyStr) :
    dictLookup (dictErase d k) k = none := by
  induction d with
  | nil => rfl
  | cons p d ih =>
    unfold dictErase at ih ⊢
    by_cases hp : p.1 = k
    · simpa [hp] using ih
    · simpa [dictLookup, hp] using ih

theorem dictLookup_cachePut_self {V : Type} (d : List (PyStr × V))
    (k : PyStr) (v : V) : dictLookup (cachePut d k v) k = some v := by
  simp [cachePut, dictLookup]

theorem takeSeq_absent {V : Type} (k : PyStr) :
    ∀ (n : Nat) (d : List (PyStr × V)), dictLookup d k = none →
      takeSeq d k n = List.replicate n none := by
  intro n
  induction n with
  | zero => intro d _; rfl
  | succ n ih =>
    intro d hd
    unfold takeSeq takeOnce
    rw [hd, ih (dictErase d k) (dictLookup_erase_self d k)]
    rfl

/-! ## Claim theorems about `wrap_text_pixels` -/

/-- C1: every line emitted by `wrap_text_pixels` has measured pixel
width at most `maxWidth`, except that a line consisting of (at most) a
single whitespace-split word may exceed it — an over-wide word is placed
alone on its own line, never split mid-word. -/
theorem wrap_text_pixels_fits_or_single_word
    (measure : PyStr → Nat) (text : PyStr) (maxWidth : Nat) :
    ∀ l ∈ wrap_text_pixels measure text maxWidth,
      measure l ≤ maxWidth ∨ (pySplit l).length ≤ 1 := by
  intro l hl
  unfold wrap_text_pixels at hl
  simp only [] at hl
  by_cases h0 : wrapLoop measure maxWidth [] [] (pySplit text) = []
  · rw [if_pos h0] at hl
    rcases List.mem_singleton.mp hl with rfl
    have hempty : pySplit l = [] :=
      (wrapLoop_eq_nil measure maxWidth (pySplit l) [] []
        (fun w hw => (pySplit_good l w hw).1) h0).2.2
    right
    rw [hempty]
    simp
  · rw [if_neg h0] at hl
    exact wrapLoop_mem measure maxWidth (pySplit text) [] []
      (fun w hw => by rw [pySplit_idem text w hw]; simp)
      (by simp) (Or.inl rfl) l hl

/-- Concrete instantiation of `wrap_text_pixels_fits_or_single_word`. -/
theorem wrap_text_pixels_fits_or_single_word_witness :
    "hello".toList ∈ wrap_text_pixels List.length "hello world".toList 5
    ∧ (List.length "hello".toList ≤ 5 ∨ (pySplit "hello".toList).length ≤ 1) :=
  ⟨by decide,
    wrap_text_pixels_fits_or_single_word List.length "hello world".toList 5
      "hello".toList (by decide)⟩

/-- C8: `wrap_text_pixels` preserves word order — joining the emitted
lines with single spaces and re-splitting reproduces the original
whitespace-split word sequence.  (The embedding is a pure function, so
determinism for fixed inputs is inherent.) -/
theorem wrap_text_pixels_preserves_words
    (measure : PyStr → Nat) (text : PyStr) (maxWidth : Nat) :
    pySplit (List.intercalate [' '] (wrap_text_pixels measure text maxWidth))
      = pySplit text := by
  unfold wrap_text_pixels
  simp only []
  by_cases h0 : wrapLoop measure maxWidth [] [] (pySplit text) = []
  · rw [if_pos h0]
    have hempty : pySplit text = [] :=
      (wrapLoop_eq_nil measure maxWidth (pySplit text) [] []
        (fun w hw => (pySplit_good text w hw).1) h0).2.2
    rw [pySplit_intercalate [text]]
    simp [hempty]
  · rw [if_neg h0, pySplit_intercalate]
    have := wrapLoop_flat measure maxWidth (pySplit text) [] []
      (pySplit_idem text)
    simpa [pySplit_nil] using this

/-- C9: wrapping the empty string returns exactly one line containing
the empty string, never an empty sequence. -/
theorem wrap_text_pixels_empty_text (measure : PyStr → Nat) (maxWidth : Nat) :
    wrap_text_pixels measure [] maxWidth = [[]] := rfl

/-- C10: on any input whose whitespace split yields no words — the
empty string or any string of whitespace characters only —
`wrap_text_pixels` returns exactly one line holding the original string
unchanged. -/
theorem wrap_text_pixels_whitespace_only
    (measure : PyStr → Nat) (text : PyStr) (maxWidth : Nat)
    (h : ∀ c ∈ text, c.isWhitespace = true) :
    wrap_text_pixels measure text maxWidth = [text] := by
  unfold wrap_text_pixels
  rw [pySplit_nil_of_all_ws text h]
  rfl

/-- Concrete instantiation of `wrap_text_pixels_whitespace_only`. -/
theorem wrap_text_pixels_whitespace_only_witness :
    (∀ c ∈ " \t ".toList, c.isWhitespace = true)
    ∧ wrap_text_pixels List.length " \t ".toList 2 = [" \t ".toList] :=
  ⟨by decide,
    wrap_text_pixels_whitespace_only List.length " \t ".toList 2 (by decide)⟩

/-! ## Claim theorems about the verse cache -/

/-- C2: the cache is single-use.  A `takeOnce` on a key just stored by
`cachePut` returns the stored record; after any `takeOnce(k)` the entry
for `k` is gone, so a second `takeOnce(k)` returns absent — at most one
`takeOnce` on `k` ever succeeds. -/
theorem takeOnce_single_use {V : Type} (d : List (PyStr × V)) (k : PyStr) (v : V) :
    (takeOnce (cachePut d k v) k).1 = some v
    ∧ dictLookup (takeOnce d k).2 k = none
    ∧ (takeOnce (takeOnce d k).2 k).1 = none := by
  exact ⟨dictLookup_cachePut_self d k v, dictLookup_erase_self d k,
    dictLookup_erase_self d k⟩

/-- C3: `n + 1` `takeOnce` calls on the same existing key — the
linearisation of `n + 1` concurrent calls, each `dict.pop` being atomic
under the CPython GIL — yield the stored record exactly once: the first
linearised call returns it and every other call returns absent, so two
concurrent `takeOnce` calls on one key never both succeed. -/
theorem takeOnce_concurrent_exactly_one {V : Type} (d : List (PyStr × V))
    (k : PyStr) (v : V) (n : Nat) (h : dictLookup d k = some v) :
    takeSeq d k (n + 1) = some v :: List.replicate n none := by
  unfold takeSeq takeOnce
  rw [h, takeSeq_absent k n (dictErase d k) (dictLookup_erase_self d k)]

/-- Concrete instantiation of `takeOnce_concurrent_exactly_one`. -/
theorem takeOnce_concurrent_exactly_one_witness :
    dictLookup [("k1".toList, "John 3:16".toList)] "k1".toList
        = some "John 3:16".toList
    ∧ takeSeq [("k1".toList, "John 3:16".toList)] "k1".toList (2 + 1)
        = some "John 3:16".toList :: List.replicate 2 none :=
  ⟨by decide,
    takeOnce_concurrent_exactly_one [("k1".toList, "John 3:16".toList)]
      "k1".toList "John 3:16".toList 2 (by decide)⟩

/-! ## Background acquisition: C4 -/

/-- C4: background acquisition is total — every failure of the photo
strategy is absorbed by the gradient fallback (the result type is a
plain `Img`, no error escapes) — and the returned frame has exactly the
requested dimensions, whichever strategy produced it. -/
theorem get_pexels_background_dims (env : PexelsEnv) (width height : Nat) :
    (get_pexels_background env width height).width = width
    ∧ (get_pexels_background env width height).height = height := by
  simp only [get_pexels_background]
  repeat' split
  all_goals exact ⟨rfl, rfl⟩

/-! ## Verse formatting: C6 -/

/-- C6 counterexample: the upstream `text` field is *not* used verbatim —
`get_random_verse` strips leading and trailing whitespace from every
field (lines 51–54), so a record whose text is `" For God so loved "`
produces the body `"For God so loved"`. -/
theorem get_random_verse_not_verbatim :
    get_random_verse (Except.ok
        [⟨"John".toList, "3".toList, "16".toList, " For God so loved ".toList⟩])
      = Except.ok ("John 3:16 (NET)".toList, "For God so loved".toList)
    ∧ "For God so loved".toList ≠ " For God so loved ".toList :=
  ⟨rfl, by decide⟩

/-- C6 amended: the reference is `"{bookname} {chapter}:{verse} (NET)"`
over the whitespace-stripped fields and the body is the stripped text;
for records whose fields carry no leading or trailing whitespace this is
exactly the claimed template with the text verbatim. -/
theorem get_random_verse_format (v : BibleApiVerse) (rest : List BibleApiVerse)
    (hb : pyStrip v.bookname = v.bookname) (hc : pyStrip v.chapter = v.chapter)
    (hn : pyStrip v.verse = v.verse) (ht : pyStrip v.text = v.text) :
    get_random_verse (Except.ok (v :: rest))
      = Except.ok
          (v.bookname ++ ' ' :: v.chapter ++ ':' :: v.verse ++ " (NET)".toList,
            v.text) := by
  simp [get_random_verse, hb, hc, hn, ht]

/-- Concrete instantiation of `get_random_verse_format`. -/
theorem get_random_verse_format_witness :
    pyStrip "John".toList = "John".toList
    ∧ get_random_verse (Except.ok
        [⟨"John".toList, "3".toList, "16".toList, "For God so loved".toList⟩])
      = Except.ok
          ("John".toList ++ ' ' :: "3".toList ++ ':' :: "16".toList
              ++ " (NET)".toList,
            "For God so loved".toList) :=
  ⟨by decide,
    get_random_verse_format
      ⟨"John".toList, "3".toList, "16".toList, "For God so loved".toList⟩ []
      (by decide) (by decide) (by decide) (by decide)⟩

/-! ## URL variant extraction: C7 -/

/-- Truthiness of a Python `or` chain distributes as boolean or. -/
theorem pyTruthy_pyOrStr (a b : Option PyStr) :
    pyTruthy (pyOrStr a b) = (pyTruthy a || pyTruthy b) := by
  unfold pyOrStr
  by_cases h : pyTruthy a <;> simp [h]

/-- C7 counterexample: a first result exposing an image URL variant
(`"large"`, non-empty) from which the code extracts nothing — lines
155–159 consult only `landscape`, `large2x` and `original`, not "any
available variant". -/
theorem extract_img_url_misses_variant :
    dictLookup (PexelsPhoto.mk
        [("large".toList, "https://img.example/p.jpg".toList)]).src
        "large".toList
      = some "https://img.example/p.jpg".toList
    ∧ extract_img_url (PexelsPhoto.mk
        [("large".toList, "https://img.example/p.jpg".toList)])
      = none :=
  ⟨by decide, by decide⟩

/-- C7 amended: the extraction considers exactly the `landscape`,
`large2x` and `original` variants, in that order of preference: a
present non-empty `landscape` URL is always chosen, the extraction is
falsy iff all three variants are absent or empty (even if other
variants are available), and in that case — with the credential set and
a successful, non-empty search — the strategy falls back to the
gradient. -/
theorem extract_img_url_variant_order (photo : PexelsPhoto) :
    (∀ u, dictLookup photo.src "landscape".toList = some u → u ≠ [] →
        extract_img_url photo = some u)
    ∧ (pyTruthy (extract_img_url photo) = false ↔
        pyTruthy (dictLookup photo.src "landscape".toList) = false
        ∧ pyTruthy (dictLookup photo.src "large2x".toList) = false
        ∧ pyTruthy (dictLookup photo.src "original".toList) = false)
    ∧ (∀ (env : PexelsEnv) (width height : Nat) (rest : List PexelsPhoto),
        pyTruthy env.apiKey = true →
        (∀ q, env.search q = Except.ok ⟨photo :: rest⟩) →
        pyTruthy (extract_img_url photo) = false →
        get_pexels_background env width height
          = create_gradient_background width height) := by
  refine ⟨?_, ?_, ?_⟩
  · intro u hu hne
    have hemp : u.isEmpty = false := by
      cases u
      · exact absurd rfl hne
      · rfl
    unfold extract_img_url
    rw [hu]
    simp [pyOrStr, pyTruthy, hemp]
  · simp [extract_img_url, pyTruthy_pyOrStr]
  · intro env width height rest hkey hsearch hfalsy
    simp only [get_pexels_background]
    rw [hkey, hsearch]
    simp [hfalsy]

/-- Concrete instantiation of `extract_img_url_variant_order`: the
landscape variant is preferred when present, and a photo exposing only
a `large` variant sends the whole strategy to the gradient. -/
theorem extract_img_url_variant_order_witness :
    extract_img_url (PexelsPhoto.mk [("landscape".toList, "u".toList)])
      = some "u".toList
    ∧ get_pexels_background
        ⟨some "k".toList,
          fun _ => Except.ok ⟨[⟨[("large".toList, "u".toList)]⟩]⟩,
          fun _ => Except.error [], fun _ => Except.error [], 0⟩ 4 3
      = create_gradient_background 4 3 :=
  ⟨(extract_img_url_variant_order _).1 "u".toList (by decide) (by decide),
   (extract_img_url_variant_order ⟨[("large".toList, "u".toList)]⟩).2.2
     _ 4 3 [] (by decide) (fun _ => rfl) (by decide)⟩

/-! ## The rendering pipeline: C5 -/

theorem layoutBody_map_txt (font : PyStr → Nat × Nat) (width : Int) :
    ∀ (ls : List PyStr) (y : Int),
      (layoutBody font width ls y).map TextDraw.txt = ls := by
  intro ls
  induction ls with
  | nil => intro y; rfl
  | cons l ls ih => intro y; simp [layoutBody, ih]

/-- C5: on a render request whose key is absent from the cache and whose
fresh upstream fetch fails, `verse_image` substitutes the fixed
placeholder record and still produces a card: the reference draw is the
fixed `"Verse not available"` and the body lines are exactly the
wrapping of the fixed placeholder text.  The embedded pipeline is total,
so no exception escapes and the route always answers with an image,
never a 4xx. -/
theorem verse_image_placeholder
    (cache : List (PyStr × (PyStr × PyStr))) (key : PyStr)
    (fetched : Except PyStr (List BibleApiVerse)) (env : PexelsEnv)
    (fonts : Fonts) (e : PyStr)
    (hmiss : dictLookup cache key = none)
    (hfail : get_random_verse fetched = Except.error e) :
    (verse_image cache key fetched env fonts).1.refDraw.txt
        = "Verse not available".toList
    ∧ ((verse_image cache key fetched env fonts).1.bodyLines).map TextDraw.txt
        = wrap_text_pixels (fun s => (fonts.verse_font s).1)
            "Sorry, could not load verse text.".toList 1080 := by
  have hpop : (takeOnce cache key).1 = (none : Option (PyStr × PyStr)) := hmiss
  simp only [verse_image]
  rw [hpop, hfail]
  exact ⟨rfl, layoutBody_map_txt _ _ _ _⟩

/-- Concrete instantiation of `verse_image_placeholder`: empty cache,
failing upstream fetch, no photo credential. -/
theorem verse_image_placeholder_witness :
    dictLookup ([] : List (PyStr × (PyStr × PyStr))) "deadbeef".toList = none
    ∧ get_random_verse (Except.error "timeout".toList)
        = Except.error "timeout".toList
    ∧ ((verse_image [] "deadbeef".toList (Except.error "timeout".toList)
          ⟨none, fun _ => Except.error [], fun _ => Except.error [],
            fun _ => Except.error [], 0⟩
          ⟨fun s => (10 * s.length, 44), fun s => (8 * s.length, 32),
            fun s => (6 * s.length, 24)⟩).1.refDraw.txt
          = "Verse not available".toList
      ∧ ((verse_image [] "deadbeef".toList (Except.error "timeout".toList)
          ⟨none, fun _ => Except.error [], fun _ => Except.error [],
            fun _ => Except.error [], 0⟩
          ⟨fun s => (10 * s.length, 44), fun s => (8 * s.length, 32),
            fun s => (6 * s.length, 24)⟩).1.bodyLines).map TextDraw.txt
          = wrap_text_pixels
              (fun s => ((10 * s.length, 44) : Nat × Nat).1)
              "Sorry, could not load verse text.".toList 1080) :=
  ⟨rfl, rfl,
    verse_image_placeholder [] "deadbeef".toList
      (Except.error "timeout".toList)
      ⟨none, fun _ => Except.error [], fun _ => Except.error [],
        fun _ => Except.error [], 0⟩
      ⟨fun s => (10 * s.length, 44), fun s => (8 * s.length, 32),
        fun s => (6 * s.length, 24)⟩
      "timeout".toList rfl rfl⟩
